import Mathlib

/-!
Verification of the casbin policy gateway and its load-test harness.

The development shallowly embeds the JavaScript sources:
  * `src/app.js` — the Express policy gateway: JWT authentication middleware,
    Joi validation schemas, and the route handlers that call the casbin
    enforcer (the external Decision Engine);
  * the stress-test client (`casbinClient`, `generateJWT`, `clientBehavior`,
    `startStressTest`).

External libraries are modelled by their documented contracts:
  * `jsonwebtoken` HS256 sign/verify: a token is represented structurally
    (payload account id, issued-at, expiry, signing key); verification
    succeeds exactly when the keys match and the current time is strictly
    before the expiry (the library rejects when `clockTimestamp >= exp`).
    Arbitrary non-JWT strings in the Authorization header are represented by
    an opaque string constructor, which never verifies.
  * Joi: `Joi.string()` accepts only non-empty strings; `required()` makes a
    key mandatory; `.or(a, b, c)` demands that at least one of the listed
    keys is present (an empty-string value is a present key); `abortEarly`
    (the default) reports the first failing constraint, left to right.
  * The casbin enforcer is an abstract stateful Decision Engine: a record of
    functions threading an abstract state, so that the sequence and the
    results of engine calls made by a handler are observable.

HTTP bodies and query strings are modelled structurally (an `Option` field
per possible key); unknown extra keys are outside the model.
-/

namespace Casbin

/-- A validated policy tuple `(sub, obj, act)`. -/
structure Policy where
  sub : String
  obj : String
  act : String
deriving Repr, DecidableEq

/-- A raw policy-shaped JSON object: each of the three keys may be absent. -/
structure RawPolicy where
  sub : Option String
  obj : Option String
  act : Option String
deriving Repr, DecidableEq

/-- A raw `{ policies: [...] }` JSON object; the key may be absent. -/
structure RawBatch where
  policies : Option (List RawPolicy)
deriving Repr, DecidableEq

/-- A raw filter payload (query string of GET /policy, body of
DELETE /filtered_policy): every key may be absent. -/
structure RawFilter where
  fieldIndex : Option Int
  sub : Option String
  obj : Option String
  act : Option String
deriving Repr, DecidableEq

/-! ### The client-side filter translator

`casbinClient.getFilteredPolicy` and `casbinClient.removeFilteredPolicy`
share the loop

    for (let i = 0; i < fieldValues.length; i++) {
      const fieldName = fieldNames[fieldIndex + i];
      if (fieldName) { params[fieldName] = fieldValues[i]; }
    }

over `fieldNames = ["sub", "obj", "act"]`, starting from an object holding
no named field. -/

/-- The named-field accumulator built by the translation loop. -/
structure NamedFields where
  sub : Option String
  obj : Option String
  act : Option String
deriving Repr, DecidableEq

/-- The fixed slot ordering `["sub", "obj", "act"]`. -/
def fieldNames : List String := ["sub", "obj", "act"]

/-- `params[fieldName] = v` on the accumulator. -/
def assignField (p : NamedFields) (name : String) (v : String) : NamedFields :=
  if name = "sub" then ⟨some v, p.obj, p.act⟩
  else if name = "obj" then ⟨p.sub, some v, p.act⟩
  else if name = "act" then ⟨p.sub, p.obj, some v⟩
  else p

/-- The translation loop: `k` is `fieldIndex + i` for the current `i`; a
slot index with no field name (`fieldNames[k]` undefined, i.e. `k ≥ 3`)
leaves the accumulator unchanged, silently dropping the value. -/
def translateFrom : Nat → List String → NamedFields → NamedFields
  | _, [], p => p
  | k, v :: vs, p =>
      translateFrom (k + 1) vs
        (match fieldNames.get? k with
          | some name => assignField p name v
          | none => p)

/-- `Translate(fieldIndex, rawValues)` of the client: run the loop on an
accumulator with no field assigned. -/
def translate (fieldIndex : Nat) (rawValues : List String) : NamedFields :=
  translateFrom fieldIndex rawValues ⟨none, none, none⟩

/-- Read the accumulator by slot number (0 = sub, 1 = obj, 2 = act). -/
def slotGet (p : NamedFields) : Nat → Option String
  | 0 => p.sub
  | 1 => p.obj
  | 2 => p.act
  | _ => none

/-! ### Joi validation schemas

`policySchema`, `policiesSchema` and `filteredPolicySchema` from `app.js`.
Joi is modelled by its documented behaviour: `Joi.string()` rejects the
empty string, `required()` rejects an absent key, constraints are checked
left to right in schema order and the first failure is reported
(`abortEarly`), array items are validated left to right, and `.or` requires
at least one of the listed keys to be present. -/

/-- `Except` success test. -/
def exceptOk : Except ε α → Bool
  | .ok _ => true
  | .error _ => false

/-- `Joi.string().required()` on one key: the key must be present and its
value must be a non-empty string. -/
def requiredString (name : String) (v : Option String) : Except String String :=
  match v with
  | none => .error (name ++ " is required")
  | some s => if s = "" then .error (name ++ " is not allowed to be empty") else .ok s

/-- Optional `Joi.string()` on one key: an absent key is fine; a present
value must be a non-empty string. -/
def optionalString (name : String) (v : Option String) : Except String (Option String) :=
  match v with
  | none => .ok none
  | some s => if s = "" then .error (name ++ " is not allowed to be empty") else .ok (some s)

/-- `policySchema`: sub, obj, act all required non-empty strings, checked in
schema order. -/
def policyValidate (p : RawPolicy) : Except String Policy :=
  match requiredString "sub" p.sub with
  | .error m => .error m
  | .ok s =>
      match requiredString "obj" p.obj with
      | .error m => .error m
      | .ok o =>
          match requiredString "act" p.act with
          | .error m => .error m
          | .ok a => .ok ⟨s, o, a⟩

/-- A `policiesSchema` failure: the `policies` key is absent, or element
`idx` is the first array element failing `policySchema`. -/
inductive BatchError where
  | policiesMissing
  | element (idx : Nat) (msg : String)
deriving Repr, DecidableEq

/-- Validate the array elements left to right, reporting the first failing
element (Joi `abortEarly`). -/
def elementsValidate : Nat → List RawPolicy → Except BatchError (List Policy)
  | _, [] => .ok []
  | i, p :: ps =>
      match policyValidate p with
      | .error m => .error (BatchError.element i m)
      | .ok q =>
          match elementsValidate (i + 1) ps with
          | .error e => .error e
          | .ok qs => .ok (q :: qs)

/-- `policiesSchema`: the `policies` key is required; its elements are each
validated by `policySchema`. Note: Joi arrays accept the empty array. -/
def policiesValidate (b : RawBatch) : Except BatchError (List Policy) :=
  match b.policies with
  | none => .error BatchError.policiesMissing
  | some l => elementsValidate 0 l

/-- A validated filter: `fieldIndex` defaulted to 0 when absent. -/
structure Filter where
  fieldIndex : Int
  sub : Option String
  obj : Option String
  act : Option String
deriving Repr, DecidableEq

/-- The presence test of `.or("sub", "obj", "act")`: at least one of the
three keys exists in the raw payload (an empty-string value is present). -/
def orSatisfied (f : RawFilter) : Bool :=
  f.sub.isSome || f.obj.isSome || f.act.isSome

/-- The key checks of `filteredPolicySchema` after `fieldIndex` has been
resolved to `fi`: sub/obj/act are optional non-empty strings (checked in
schema order, first failure reported), then the `.or` cross-field
constraint. -/
def filterValidateCore (fi : Int) (f : RawFilter) : Except String Filter :=
  match optionalString "sub" f.sub with
  | .error m => .error m
  | .ok s =>
      match optionalString "obj" f.obj with
      | .error m => .error m
      | .ok o =>
          match optionalString "act" f.act with
          | .error m => .error m
          | .ok a =>
              if orSatisfied f then .ok ⟨fi, s, o, a⟩
              else .error "at least one of sub, obj, act must be present"

/-- `filteredPolicySchema`: `fieldIndex` is an optional integer `≥ 0`
defaulting to 0; sub/obj/act are optional non-empty strings; at least one of
sub/obj/act must be present. -/
def filterValidate (f : RawFilter) : Except String Filter :=
  match f.fieldIndex with
  | some i =>
      if i < 0 then .error "fieldIndex must be greater than or equal to 0"
      else filterValidateCore i f
  | none => filterValidateCore 0 f

/-- Boolean form of `policyValidate`. -/
def policyOkB (p : RawPolicy) : Bool := exceptOk (policyValidate p)

/-- A present optional string field is acceptable iff non-empty. -/
def nonEmptyOpt : Option String → Bool
  | none => true
  | some s => s ≠ ""

/-- `fieldIndex` is acceptable iff absent or `≥ 0`. -/
def fieldIndexOkB : Option Int → Bool
  | none => true
  | some i => 0 ≤ i

/-! ### Service tokens

`generateJWT` from the stress-test client and the HS256 contract of the
`jsonwebtoken` library. A structurally represented token stands for a JWT
string correctly signed with `key`; an opaque `word` stands for any string
that is not a JWT validly signed under the verification key (including the
literal word "Bearer"). `jsonwebtoken` rejects a token whose `exp` is `≤`
the current clock, and reports the decoded payload otherwise. -/

/-- A structurally represented signed JWT. -/
structure Jwt where
  accountId : String
  iat : Nat
  exp : Nat
  key : String
deriving Repr, DecidableEq

/-- One space-separated part of an Authorization header value. -/
inductive Token where
  | word (s : String)
  | signed (j : Jwt)
deriving Repr, DecidableEq

/-- The decoded payload consumed by the middleware. -/
structure JwtPayload where
  accountId : String
deriving Repr, DecidableEq

/-- Process-wide configuration: `ACCESS_CONTROL_SIGNKEY` and
`AWS_ACCOUNT_ID`. -/
structure Config where
  signKey : String
  awsAccountId : String
deriving Repr, DecidableEq

/-- `jwt.verify(token, key)` at clock time `now`. -/
def verifyToken (key : String) (now : Nat) : Token → Except String JwtPayload
  | Token.word _ => .error "jwt malformed"
  | Token.signed j =>
      if j.key ≠ key then .error "invalid signature"
      else if j.exp ≤ now then .error "jwt expired"
      else .ok ⟨j.accountId⟩

/-- `generateJWT` of the stress-test client: payload
`{ accountId: process.env.AWS_ACCOUNT_ID }` signed with the configured key,
`expiresIn: "1m"` (60 seconds). -/
def generateJWT (cfg : Config) (now : Nat) : Jwt :=
  ⟨cfg.awsAccountId, now, now + 60, cfg.signKey⟩

/-- The `authenticateJWT` middleware: missing header → 401; falsy token
(`authHeader.split(" ")[1]` undefined, or the empty string as with the
header "Bearer  x" — the JS test `if (!token)`) → 401 "Token missing.";
failed `jwt.verify` → 403 "Invalid token."; decoded `accountId` different
from the configured trusted account → 403 "Unauthorized account ID.";
otherwise the verified account id flows on. The header is modelled as its
list of space-separated parts; the only empty-string part is
`Token.word ""` (a serialized signed JWT is never empty). -/
def authCheck (cfg : Config) (now : Nat) :
    Option (List Token) → Except (Nat × String) String
  | none => .error (401, "Authorization header missing.")
  | some parts =>
      match parts.get? 1 with
      | none => .error (401, "Token missing.")
      | some tok =>
          if tok = Token.word "" then .error (401, "Token missing.")
          else
            match verifyToken cfg.signKey now tok with
            | .error _ => .error (403, "Invalid token.")
            | .ok payload =>
                if payload.accountId ≠ cfg.awsAccountId then
                  .error (403, "Unauthorized account ID.")
                else .ok payload.accountId

/-! ### The Decision Engine and the route handlers -/

/-- The external Decision Engine (the casbin enforcer): a record of stateful
methods over an abstract state `σ`. -/
structure Engine (σ : Type) where
  addPolicy : σ → String → String → String → Bool × σ
  addPolicies : σ → List Policy → List Policy × σ
  removePolicy : σ → String → String → String → Bool × σ
  getFilteredPolicy : σ → Int → List String → List Policy × σ
  removeFilteredPolicy : σ → Int → List String → Bool × σ
  enforce : σ → String → String → String → Bool × σ
  getPolicy : σ → List Policy × σ

/-- An observable Decision Engine invocation. -/
inductive EngineCall where
  | addPolicy (sub obj act : String)
  | addPolicies (ps : List Policy)
  | removePolicy (sub obj act : String)
  | getFilteredPolicy (fieldIndex : Int) (vals : List String)
  | removeFilteredPolicy (fieldIndex : Int) (vals : List String)
  | enforce (sub obj act : String)
  | getPolicy
deriving Repr, DecidableEq

/-- A JSON response body. -/
inductive RespBody where
  | jsonAdded (b : Bool)
  | jsonAddedCount (n : Nat)
  | jsonRemoved (b : Bool)
  | jsonRemovedCount (n : Nat)
  | jsonPolicies (ps : List Policy)
  | jsonAllowed (b : Bool)
  | jsonStatus (s : String)
  | jsonError (msg : String)
deriving Repr, DecidableEq

/-- The outcome of handling one request: HTTP status, response body, the
Decision Engine calls made (in order), and the resulting engine state. -/
structure HandleResult (σ : Type) where
  status : Nat
  body : RespBody
  calls : List EngineCall
  state : σ
deriving Repr

/-- HTTP method. -/
inductive Method where
  | get
  | post
  | delete
deriving Repr, DecidableEq

/-- A JSON request body, modelled as one record holding every key any
schema of the gateway knows; an absent key is `none`. -/
structure Body where
  policies : Option (List RawPolicy)
  fieldIndex : Option Int
  sub : Option String
  obj : Option String
  act : Option String
deriving Repr, DecidableEq

/-- The view of a body taken by `policySchema`. -/
def Body.toRawPolicy (b : Body) : RawPolicy := ⟨b.sub, b.obj, b.act⟩

/-- The view of a body taken by `policiesSchema`. -/
def Body.toRawBatch (b : Body) : RawBatch := ⟨b.policies⟩

/-- The view of a body taken by `filteredPolicySchema`. -/
def Body.toRawFilter (b : Body) : RawFilter := ⟨b.fieldIndex, b.sub, b.obj, b.act⟩

/-- An inbound HTTP request. -/
structure Request where
  method : Method
  path : String
  authHeader : Option (List Token)
  body : Body
  query : RawFilter

/-- An empty JSON body. -/
def emptyBody : Body := ⟨none, none, none, none, none⟩

/-- An empty query string. -/
def emptyQuery : RawFilter := ⟨none, none, none, none⟩

/-- `GET /policies`. -/
def listPoliciesHandler (e : Engine σ) (s : σ) : HandleResult σ :=
  let r := e.getPolicy s
  ⟨200, RespBody.jsonPolicies r.1, [EngineCall.getPolicy], r.2⟩

/-- `POST /policy`: validate, then `enforcer.addPolicy(sub, obj, act)`. -/
def addPolicyHandler (e : Engine σ) (s : σ) (raw : RawPolicy) : HandleResult σ :=
  match policyValidate raw with
  | .error m => ⟨400, RespBody.jsonError m, [], s⟩
  | .ok p =>
      let r := e.addPolicy s p.sub p.obj p.act
      ⟨200, RespBody.jsonAdded r.1, [EngineCall.addPolicy p.sub p.obj p.act], r.2⟩

/-- `POST /policies`: validate, then `enforcer.addPolicies(policies)`;
responds with the number of newly added policies. -/
def addPoliciesHandler (e : Engine σ) (s : σ) (raw : RawBatch) : HandleResult σ :=
  match policiesValidate raw with
  | .error _ => ⟨400, RespBody.jsonError "validation failed", [], s⟩
  | .ok ps =>
      let r := e.addPolicies s ps
      ⟨200, RespBody.jsonAddedCount r.1.length, [EngineCall.addPolicies ps], r.2⟩

/-- `DELETE /policy`: validate, then `enforcer.removePolicy(sub, obj, act)`. -/
def removePolicyHandler (e : Engine σ) (s : σ) (raw : RawPolicy) : HandleResult σ :=
  match policyValidate raw with
  | .error m => ⟨400, RespBody.jsonError m, [], s⟩
  | .ok p =>
      let r := e.removePolicy s p.sub p.obj p.act
      ⟨200, RespBody.jsonRemoved r.1, [EngineCall.removePolicy p.sub p.obj p.act], r.2⟩

/-- The `for (const policy of policies)` loop of `DELETE /policies`:
`removePolicy` per element in order, collecting the elements whose removal
returned true; a false return is logged and the loop continues. Returns the
collected elements, the engine calls made, and the final engine state. -/
def removePoliciesLoop (e : Engine σ) : σ → List Policy → List Policy × List EngineCall × σ
  | s, [] => ([], [], s)
  | s, p :: ps =>
      let r := e.removePolicy s p.sub p.obj p.act
      let rest := removePoliciesLoop e r.2 ps
      (if r.1 then p :: rest.1 else rest.1,
       EngineCall.removePolicy p.sub p.obj p.act :: rest.2.1,
       rest.2.2)

/-- The per-element removal results, in processing order. -/
def removeResults (e : Engine σ) : σ → List Policy → List Bool
  | _, [] => []
  | s, p :: ps =>
      let r := e.removePolicy s p.sub p.obj p.act
      r.1 :: removeResults e r.2 ps

/-- `DELETE /policies`: validate, then the per-element removal loop;
responds with `removedPolicies.length`. -/
def removePoliciesHandler (e : Engine σ) (s : σ) (raw : RawBatch) : HandleResult σ :=
  match policiesValidate raw with
  | .error _ => ⟨400, RespBody.jsonError "validation failed", [], s⟩
  | .ok ps =>
      let r := removePoliciesLoop e s ps
      ⟨200, RespBody.jsonRemovedCount r.1.length, r.2.1, r.2.2⟩

/-- `const filterValues = [sub, obj, act].filter((v) => v !== undefined)`. -/
def filterValues (f : Filter) : List String :=
  List.filterMap id [f.sub, f.obj, f.act]

/-- `GET /policy`: validate the query, then
`enforcer.getFilteredPolicy(Number(fieldIndex), ...filterValues)`. -/
def getFilteredHandler (e : Engine σ) (s : σ) (q : RawFilter) : HandleResult σ :=
  match filterValidate q with
  | .error m => ⟨400, RespBody.jsonError m, [], s⟩
  | .ok f =>
      let vals := filterValues f
      let r := e.getFilteredPolicy s f.fieldIndex vals
      ⟨200, RespBody.jsonPolicies r.1, [EngineCall.getFilteredPolicy f.fieldIndex vals], r.2⟩

/-- `DELETE /filtered_policy`: validate the body, then
`enforcer.removeFilteredPolicy(Number(fieldIndex), ...filterValues)`. -/
def removeFilteredHandler (e : Engine σ) (s : σ) (q : RawFilter) : HandleResult σ :=
  match filterValidate q with
  | .error m => ⟨400, RespBody.jsonError m, [], s⟩
  | .ok f =>
      let vals := filterValues f
      let r := e.removeFilteredPolicy s f.fieldIndex vals
      ⟨200, RespBody.jsonRemoved r.1, [EngineCall.removeFilteredPolicy f.fieldIndex vals], r.2⟩

/-- `POST /enforce`: validate, then `enforcer.enforce(sub, obj, act)`. -/
def enforceHandler (e : Engine σ) (s : σ) (raw : RawPolicy) : HandleResult σ :=
  match policyValidate raw with
  | .error m => ⟨400, RespBody.jsonError m, [], s⟩
  | .ok p =>
      let r := e.enforce s p.sub p.obj p.act
      ⟨200, RespBody.jsonAllowed r.1, [EngineCall.enforce p.sub p.obj p.act], r.2⟩

/-- The operations of the route table. -/
inductive RouteKey where
  | health
  | listPolicies
  | addPolicy
  | addPolicies
  | removePolicy
  | removePolicies
  | getFiltered
  | removeFiltered
  | enforcePolicy
  | unmatched
deriving Repr, DecidableEq

/-- Which registered route (method + path) a request matches, if any. -/
def routeKey (req : Request) : RouteKey :=
  if req.method = Method.get ∧ req.path = "/health" then RouteKey.health
  else if req.method = Method.get ∧ req.path = "/policies" then RouteKey.listPolicies
  else if req.method = Method.post ∧ req.path = "/policy" then RouteKey.addPolicy
  else if req.method = Method.post ∧ req.path = "/policies" then RouteKey.addPolicies
  else if req.method = Method.delete ∧ req.path = "/policy" then RouteKey.removePolicy
  else if req.method = Method.delete ∧ req.path = "/policies" then RouteKey.removePolicies
  else if req.method = Method.get ∧ req.path = "/policy" then RouteKey.getFiltered
  else if req.method = Method.delete ∧ req.path = "/filtered_policy" then RouteKey.removeFiltered
  else if req.method = Method.post ∧ req.path = "/enforce" then RouteKey.enforcePolicy
  else RouteKey.unmatched

/-- Dispatch of a matched route to its handler. -/
def dispatch (k : RouteKey) (e : Engine σ) (s : σ) (req : Request) : HandleResult σ :=
  match k with
  | RouteKey.health => ⟨200, RespBody.jsonStatus "ok", [], s⟩
  | RouteKey.listPolicies => listPoliciesHandler e s
  | RouteKey.addPolicy => addPolicyHandler e s req.body.toRawPolicy
  | RouteKey.addPolicies => addPoliciesHandler e s req.body.toRawBatch
  | RouteKey.removePolicy => removePolicyHandler e s req.body.toRawPolicy
  | RouteKey.removePolicies => removePoliciesHandler e s req.body.toRawBatch
  | RouteKey.getFiltered => getFilteredHandler e s req.query
  | RouteKey.removeFiltered => removeFilteredHandler e s req.body.toRawFilter
  | RouteKey.enforcePolicy => enforceHandler e s req.body.toRawPolicy
  | RouteKey.unmatched => ⟨404, RespBody.jsonError "Route not found.", [], s⟩

/-- The route table of `app.js` (the enforcer-initialized middleware is
taken as passed: the engine is available). Unmatched routes give 404. -/
def route (e : Engine σ) (s : σ) (req : Request) : HandleResult σ :=
  dispatch (routeKey req) e s req

/-- The full request pipeline: the auth-exemption middleware passes
`/health` through untouched; every other path goes through
`authenticateJWT` first, and only then reaches the route table. -/
def handle (cfg : Config) (now : Nat) (e : Engine σ) (s : σ) (req : Request) :
    HandleResult σ :=
  if req.path = "/health" then route e s req
  else
    match authCheck cfg now req.authHeader with
    | .error f => ⟨f.1, RespBody.jsonError f.2, [], s⟩
    | .ok _ => route e s req

/-- Does the validation schema of route `k` reject the request's payload?
(`false` on schema-free routes and unmatched routes.) -/
def schemaRejects (k : RouteKey) (req : Request) : Bool :=
  match k with
  | RouteKey.addPolicy => ! exceptOk (policyValidate req.body.toRawPolicy)
  | RouteKey.addPolicies => ! exceptOk (policiesValidate req.body.toRawBatch)
  | RouteKey.removePolicy => ! exceptOk (policyValidate req.body.toRawPolicy)
  | RouteKey.removePolicies => ! exceptOk (policiesValidate req.body.toRawBatch)
  | RouteKey.getFiltered => ! exceptOk (filterValidate req.query)
  | RouteKey.removeFiltered => ! exceptOk (filterValidate req.body.toRawFilter)
  | RouteKey.enforcePolicy => ! exceptOk (policyValidate req.body.toRawPolicy)
  | _ => false

/-- Does the request's route run a validation schema that rejects its
payload? -/
def validationRejected (req : Request) : Bool :=
  schemaRejects (routeKey req) req

/-! ### The load harness -/

/-- What one harness iteration leaves in the log: either the success log of
the chosen operation, or the caught-and-logged error. -/
inductive IterationEvent where
  | succeeded (i : Nat)
  | errorLogged (i : Nat) (msg : String)
deriving Repr, DecidableEq

/-- The try/catch around one loop iteration of `clientBehavior`: a raised
error is caught and logged, never propagated. -/
def iterationStep (i : Nat) (r : Except String Unit) : IterationEvent :=
  match r with
  | .ok _ => IterationEvent.succeeded i
  | .error m => IterationEvent.errorLogged i m

/-- `clientBehavior` of the stress test: `R` strictly sequential iterations
`i = 0 .. R-1`; the outcome of the randomized authenticated operation of
iteration `i` is abstracted as an oracle (randomness and the network are
external). -/
def clientBehavior (outcome : Nat → Except String Unit) (R : Nat) :
    List IterationEvent :=
  (List.range R).map (fun i => iterationStep i (outcome i))

/-- `startStressTest`: clients `1 .. C` all started, each running
`clientBehavior`; `Promise.all` resolves with every client's outcome, after
which "Stress test completed" is logged. The result lists, per client, the
events of its full run. -/
def startStressTest (outcome : Nat → Nat → Except String Unit) (C R : Nat) :
    List (Nat × List IterationEvent) :=
  (List.range C).map (fun k => (k + 1, clientBehavior (outcome (k + 1)) R))

/-! ### Spec-side acceptance predicates (for refinement comparison only)

These two definitions follow the words of the claims, not the source; they
exist to be compared with the source-derived validators. -/

/-- The batch acceptance condition as the claim states it: the `policies`
field is a non-empty array every element of which is a valid tuple. -/
def claimBatchAccepts (b : RawBatch) : Bool :=
  match b.policies with
  | none => false
  | some l => !l.isEmpty && l.all policyOkB

/-- The filter acceptance condition as the claim states it: `fieldIndex`
absent or `≥ 0`, and at least one of sub/obj/act present. -/
def claimFilterAccepts (f : RawFilter) : Bool :=
  fieldIndexOkB f.fieldIndex && orSatisfied f

/-! ### Concrete instances used by witnesses and counterexamples -/

/-- A concrete configuration. -/
def cfg0 : Config := ⟨"topsecret", "123456789012"⟩

/-- A trivial Decision Engine over the unit state. -/
def engine0 : Engine Unit where
  addPolicy := fun s _ _ _ => (true, s)
  addPolicies := fun s ps => (ps, s)
  removePolicy := fun s _ _ _ => (true, s)
  getFilteredPolicy := fun s _ _ => ([], s)
  removeFilteredPolicy := fun s _ _ => (true, s)
  enforce := fun s _ _ _ => (false, s)
  getPolicy := fun s => ([], s)

/-- A well-formed Authorization header for `cfg0` at clock time 0. -/
def goodHeader : Option (List Token) :=
  some [Token.word "Bearer", Token.signed (generateJWT cfg0 0)]

/-- A request carrying a Bearer token that is not a valid JWT. -/
def reqBadToken : Request :=
  ⟨Method.post, "/policy", some [Token.word "Bearer", Token.word "garbage"],
   emptyBody, emptyQuery⟩

/-- A request with no Authorization header on an authenticated route. -/
def reqNoAuth : Request :=
  ⟨Method.post, "/policy", none, emptyBody, emptyQuery⟩

/-- A request whose Authorization header is "Bearer  x" (double space):
`split(" ")` yields ["Bearer", "", "x"], so the token part is the falsy
empty string. -/
def reqEmptyToken : Request :=
  ⟨Method.post, "/policy",
   some [Token.word "Bearer", Token.word "", Token.word "x"],
   emptyBody, emptyQuery⟩

/-- A batch-remove request whose second element fails removal. -/
def reqRemoveBatch : Request :=
  ⟨Method.delete, "/policies", goodHeader,
   ⟨some [⟨some "alice", some "doc1", some "read"⟩,
          ⟨some "bob", some "doc2", some "write"⟩], none, none, none, none⟩,
   emptyQuery⟩

/-- An engine over `Nat` state whose `removePolicy` succeeds only for
subject "alice" and counts its calls in the state. -/
def engineAlice : Engine Nat where
  addPolicy := fun s _ _ _ => (true, s)
  addPolicies := fun s ps => (ps, s)
  removePolicy := fun s sub _ _ => (sub = "alice", s + 1)
  getFilteredPolicy := fun s _ _ => ([], s)
  removeFilteredPolicy := fun s _ _ => (true, s)
  enforce := fun s _ _ _ => (false, s)
  getPolicy := fun s => ([], s)

end Casbin

namespace Casbin

theorem slotGet_assign (p : NamedFields) (k : Nat) (v : String) (t : Nat) :
    slotGet
      (match fieldNames.get? k with
        | some name => assignField p name v
        | none => p) t
      = if t = k ∧ k < 3 then some v else slotGet p t := by
  match k, t with
  | 0, 0 => simp [fieldNames, assignField, slotGet]
  | 0, 1 => simp [fieldNames, assignField, slotGet]
  | 0, 2 => simp [fieldNames, assignField, slotGet]
  | 0, t + 3 => simp [fieldNames, assignField, slotGet]
  | 1, 0 => simp [fieldNames, assignField, slotGet]
  | 1, 1 => simp [fieldNames, assignField, slotGet]
  | 1, 2 => simp [fieldNames, assignField, slotGet]
  | 1, t + 3 => simp [fieldNames, assignField, slotGet]
  | 2, 0 => simp [fieldNames, assignField, slotGet]
  | 2, 1 => simp [fieldNames, assignField, slotGet]
  | 2, 2 => simp [fieldNames, assignField, slotGet]
  | 2, t + 3 => simp [fieldNames, assignField, slotGet]
  | k + 3, t =>
      have hk : fieldNames.get? (k + 3) = none := by
        simp [fieldNames, List.get?_eq_none]
      rw [hk]
      have : ¬ (t = k + 3 ∧ k + 3 < 3) := by omega
      simp [this]

theorem translateFrom_slot (vs : List String) (k : Nat) (p : NamedFields) (t : Nat) :
    slotGet (translateFrom k vs p) t =
      if k ≤ t ∧ t < k + vs.length ∧ t < 3 then vs.get? (t - k)
      else slotGet p t := by
  induction vs generalizing k p with
  | nil =>
      rw [translateFrom]
      have h0 : ¬ (k ≤ t ∧ t < k + ([] : List String).length ∧ t < 3) := by
        simp only [List.length_nil]; omega
      rw [if_neg h0]
  | cons v vs ih =>
      rw [translateFrom, ih, slotGet_assign]
      simp only [List.length_cons]
      by_cases hkt : t = k ∧ k < 3
      · have h1 : ¬ (k + 1 ≤ t ∧ t < k + 1 + vs.length ∧ t < 3) := by omega
        have h2 : k ≤ t ∧ t < k + (vs.length + 1) ∧ t < 3 := by omega
        rw [if_neg h1, if_pos hkt, if_pos h2]
        obtain ⟨ht, _⟩ := hkt
        subst ht
        simp
      · by_cases h1 : k + 1 ≤ t ∧ t < k + 1 + vs.length ∧ t < 3
        · have h2 : k ≤ t ∧ t < k + (vs.length + 1) ∧ t < 3 := by omega
          rw [if_pos h1, if_pos h2]
          have ht : t - k = (t - (k + 1)) + 1 := by omega
          rw [ht]
          simp
        · have h2 : ¬ (k ≤ t ∧ t < k + (vs.length + 1) ∧ t < 3) := by omega
          rw [if_neg h1, if_neg hkt, if_neg h2]

theorem NamedFields.ext_slots (p q : NamedFields)
    (h : ∀ t, slotGet p t = slotGet q t) : p = q := by
  obtain ⟨ps, po, pa⟩ := p
  obtain ⟨qs, qo, qa⟩ := q
  have h0 := h 0
  have h1 := h 1
  have h2 := h 2
  simp only [slotGet] at h0 h1 h2
  rw [h0, h1, h2]

theorem translate_drop (f : Nat) (vs : List String) :
    translate f vs = translate f (vs.take (3 - f)) := by
  apply NamedFields.ext_slots
  intro t
  rw [translate, translate, translateFrom_slot, translateFrom_slot]
  simp only [List.length_take]
  by_cases h : f ≤ t ∧ t < f + vs.length ∧ t < 3
  · have h2 : f ≤ t ∧ t < f + ((3 - f) ⊓ vs.length) ∧ t < 3 := by omega
    rw [if_pos h, if_pos h2, List.get?_eq_getElem?, List.get?_eq_getElem?,
      List.getElem?_take_of_lt (by omega)]
  · have h2 : ¬ (f ≤ t ∧ t < f + ((3 - f) ⊓ vs.length) ∧ t < 3) := by omega
    rw [if_neg h, if_neg h2]

/-- C1: the filter translation of the harness client maps `rawValues[i]` to
the slot `fieldIndex + i` of the fixed ordering `[sub, obj, act]` whenever
`fieldIndex + i < 3`; values falling outside the three slots are silently
dropped (truncating the list to the remaining slots changes nothing); in
particular `translate(0, [s,o,a])` yields all three fields unchanged,
`translate(2, [x])` yields only `act = x`, and `translate(2, [x,y])` yields
`act = x` and drops `y`. -/
theorem C1_translate_positional :
    (∀ (fieldIndex : Nat) (rawValues : List String) (i : Nat)
        (h : i < rawValues.length), fieldIndex + i < 3 →
          slotGet (translate fieldIndex rawValues) (fieldIndex + i)
            = some (rawValues.get ⟨i, h⟩)) ∧
    (∀ (fieldIndex : Nat) (rawValues : List String),
        translate fieldIndex rawValues
          = translate fieldIndex (rawValues.take (3 - fieldIndex))) ∧
    (∀ s o a, translate 0 [s, o, a] = ⟨some s, some o, some a⟩) ∧
    (∀ x, translate 2 [x] = ⟨none, none, some x⟩) ∧
    (∀ x y, translate 2 [x, y] = ⟨none, none, some x⟩) := by
  refine ⟨?_, translate_drop, ?_, ?_, ?_⟩
  · intro f vs i h hlt
    rw [translate, translateFrom_slot]
    have hc : f ≤ f + i ∧ f + i < f + vs.length ∧ f + i < 3 := by omega
    rw [if_pos hc]
    have hi : f + i - f = i := by omega
    rw [hi, List.get?_eq_get h]
  · intro s o a
    simp [translate, translateFrom, fieldNames, assignField]
  · intro x
    simp [translate, translateFrom, fieldNames, assignField]
  · intro x y
    simp [translate, translateFrom, fieldNames, assignField]

theorem C1_translate_positional_witness :
    0 + 0 < 3 ∧
      slotGet (translate 0 ["alice", "doc1", "read"]) (0 + 0)
        = some (["alice", "doc1", "read"].get ⟨0, by decide⟩) :=
  ⟨by decide,
   C1_translate_positional.1 0 ["alice", "doc1", "read"] 0 (by decide) (by decide)⟩

theorem exceptOk_false_iff {ε α : Type} (v : Except ε α) :
    exceptOk v = false ↔ ∃ m, v = Except.error m := by
  cases v <;> simp [exceptOk]

theorem elementsValidate_ok (n : Nat) (l : List RawPolicy) :
    exceptOk (elementsValidate n l) = l.all policyOkB := by
  induction l generalizing n with
  | nil => simp [elementsValidate, exceptOk]
  | cons p ps ih =>
      rw [elementsValidate]
      cases hp : policyValidate p with
      | error m => simp [List.all_cons, policyOkB, hp, exceptOk]
      | ok q =>
          have hps := ih (n + 1)
          cases he : elementsValidate (n + 1) ps with
          | error e =>
              rw [he] at hps
              simp [List.all_cons, policyOkB, hp, exceptOk, ← hps]
          | ok qs =>
              rw [he] at hps
              simp [List.all_cons, policyOkB, hp, exceptOk, ← hps]

theorem elementsValidate_first_bad (l : List RawPolicy) (n j : Nat) (m : String)
    (h : elementsValidate n l = .error (BatchError.element j m)) :
    n ≤ j ∧ j - n < l.length ∧
      policyOkB (l.getD (j - n) ⟨none, none, none⟩) = false ∧
      ∀ t, t < j - n → policyOkB (l.getD t ⟨none, none, none⟩) = true := by
  induction l generalizing n with
  | nil => simp [elementsValidate] at h
  | cons p ps ih =>
      rw [elementsValidate] at h
      cases hp : policyValidate p with
      | error mm =>
          rw [hp] at h
          simp only [Except.error.injEq, BatchError.element.injEq] at h
          obtain ⟨hj, -⟩ := h
          subst hj
          refine ⟨Nat.le_refl n, by simp, ?_, ?_⟩
          · simp [policyOkB, hp, exceptOk]
          · intro t ht
            omega
      | ok q =>
          rw [hp] at h
          cases he : elementsValidate (n + 1) ps with
          | error e =>
              rw [he] at h
              simp only [Except.error.injEq] at h
              subst h
              obtain ⟨h1, h2, h3, h4⟩ := ih (n + 1) he
              have hjn : j - n = (j - (n + 1)) + 1 := by omega
              refine ⟨by omega, by simp; omega, ?_, ?_⟩
              · rw [hjn, List.getD_cons_succ]
                exact h3
              · intro t ht
                match t with
                | 0 => simp [policyOkB, hp, exceptOk]
                | t + 1 =>
                    rw [List.getD_cons_succ]
                    exact h4 t (by omega)
          | ok qs =>
              rw [he] at h
              simp at h

theorem routeKey_post_policies (req : Request)
    (hm : req.method = Method.post) (hp : req.path = "/policies") :
    routeKey req = RouteKey.addPolicies := by
  simp [routeKey, hm, hp]

theorem routeKey_delete_policies (req : Request)
    (hm : req.method = Method.delete) (hp : req.path = "/policies") :
    routeKey req = RouteKey.removePolicies := by
  simp [routeKey, hm, hp]

theorem handle_auth_ok (cfg : Config) (now : Nat) (e : Engine σ) (s : σ)
    (req : Request) (acc : String)
    (h : authCheck cfg now req.authHeader = .ok acc) :
    handle cfg now e s req = route e s req := by
  rw [handle]
  by_cases hp : req.path = "/health"
  · rw [if_pos hp]
  · rw [if_neg hp, h]

theorem handle_auth_error (cfg : Config) (now : Nat) (e : Engine σ) (s : σ)
    (req : Request) (st : Nat) (m : String)
    (hp : req.path ≠ "/health")
    (h : authCheck cfg now req.authHeader = .error (st, m)) :
    handle cfg now e s req = ⟨st, RespBody.jsonError m, [], s⟩ := by
  rw [handle, if_neg hp, h]

theorem addPolicyHandler_reject (e : Engine σ) (s : σ) (raw : RawPolicy)
    (h : exceptOk (policyValidate raw) = false) :
    (addPolicyHandler e s raw).status = 400 ∧ (addPolicyHandler e s raw).calls = [] := by
  rcases (exceptOk_false_iff _).1 h with ⟨m, hm⟩
  simp [addPolicyHandler, hm]

theorem addPoliciesHandler_reject (e : Engine σ) (s : σ) (raw : RawBatch)
    (h : exceptOk (policiesValidate raw) = false) :
    (addPoliciesHandler e s raw).status = 400 ∧ (addPoliciesHandler e s raw).calls = [] := by
  rcases (exceptOk_false_iff _).1 h with ⟨m, hm⟩
  simp [addPoliciesHandler, hm]

theorem removePolicyHandler_reject (e : Engine σ) (s : σ) (raw : RawPolicy)
    (h : exceptOk (policyValidate raw) = false) :
    (removePolicyHandler e s raw).status = 400 ∧ (removePolicyHandler e s raw).calls = [] := by
  rcases (exceptOk_false_iff _).1 h with ⟨m, hm⟩
  simp [removePolicyHandler, hm]

theorem removePoliciesHandler_reject (e : Engine σ) (s : σ) (raw : RawBatch)
    (h : exceptOk (policiesValidate raw) = false) :
    (removePoliciesHandler e s raw).status = 400 ∧ (removePoliciesHandler e s raw).calls = [] := by
  rcases (exceptOk_false_iff _).1 h with ⟨m, hm⟩
  simp [removePoliciesHandler, hm]

theorem getFilteredHandler_reject (e : Engine σ) (s : σ) (q : RawFilter)
    (h : exceptOk (filterValidate q) = false) :
    (getFilteredHandler e s q).status = 400 ∧ (getFilteredHandler e s q).calls = [] := by
  rcases (exceptOk_false_iff _).1 h with ⟨m, hm⟩
  simp [getFilteredHandler, hm]

theorem removeFilteredHandler_reject (e : Engine σ) (s : σ) (q : RawFilter)
    (h : exceptOk (filterValidate q) = false) :
    (removeFilteredHandler e s q).status = 400 ∧ (removeFilteredHandler e s q).calls = [] := by
  rcases (exceptOk_false_iff _).1 h with ⟨m, hm⟩
  simp [removeFilteredHandler, hm]

theorem enforceHandler_reject (e : Engine σ) (s : σ) (raw : RawPolicy)
    (h : exceptOk (policyValidate raw) = false) :
    (enforceHandler e s raw).status = 400 ∧ (enforceHandler e s raw).calls = [] := by
  rcases (exceptOk_false_iff _).1 h with ⟨m, hm⟩
  simp [enforceHandler, hm]

theorem route_validation_reject (e : Engine σ) (s : σ) (req : Request)
    (h : validationRejected req = true) :
    (route e s req).status = 400 ∧ (route e s req).calls = [] := by
  unfold validationRejected at h
  unfold route
  cases hk : routeKey req with
  | health => rw [hk] at h; simp [schemaRejects] at h
  | listPolicies => rw [hk] at h; simp [schemaRejects] at h
  | unmatched => rw [hk] at h; simp [schemaRejects] at h
  | addPolicy =>
      rw [hk] at h
      simp only [schemaRejects, Bool.not_eq_true'] at h
      exact addPolicyHandler_reject e s _ h
  | addPolicies =>
      rw [hk] at h
      simp only [schemaRejects, Bool.not_eq_true'] at h
      exact addPoliciesHandler_reject e s _ h
  | removePolicy =>
      rw [hk] at h
      simp only [schemaRejects, Bool.not_eq_true'] at h
      exact removePolicyHandler_reject e s _ h
  | removePolicies =>
      rw [hk] at h
      simp only [schemaRejects, Bool.not_eq_true'] at h
      exact removePoliciesHandler_reject e s _ h
  | getFiltered =>
      rw [hk] at h
      simp only [schemaRejects, Bool.not_eq_true'] at h
      exact getFilteredHandler_reject e s _ h
  | removeFiltered =>
      rw [hk] at h
      simp only [schemaRejects, Bool.not_eq_true'] at h
      exact removeFilteredHandler_reject e s _ h
  | enforcePolicy =>
      rw [hk] at h
      simp only [schemaRejects, Bool.not_eq_true'] at h
      exact enforceHandler_reject e s _ h

/-- C2 counterexample: the payload `{ policies: [] }`. The claim demands
that an empty batch be rejected with 400 and zero engine calls, but
`policiesSchema` accepts the empty array: the request succeeds with 200 and
`addPolicies` is invoked on the empty list. -/
theorem C2_counterexample :
    claimBatchAccepts ⟨some []⟩ = false ∧
    exceptOk (policiesValidate ⟨some []⟩) = true ∧
    (handle cfg0 0 engine0 ()
        ⟨Method.post, "/policies", goodHeader,
         ⟨some [], none, none, none, none⟩, emptyQuery⟩).status = 200 ∧
    (handle cfg0 0 engine0 ()
        ⟨Method.post, "/policies", goodHeader,
         ⟨some [], none, none, none, none⟩, emptyQuery⟩).calls
      = [EngineCall.addPolicies []] := by
  refine ⟨by decide, by decide, by decide, by decide⟩

/-- C2 (amended): batch validation accepts a payload iff its `policies`
field is present and every element is a valid tuple (the empty array is
accepted); when some element is invalid, the reported error names the first
offending element (a least failing index), and the request is rejected with
400 before any Decision Engine call. -/
theorem C2_batch_validation :
    (∀ b : RawBatch, exceptOk (policiesValidate b) = true ↔
        ∃ l, b.policies = some l ∧ l.all policyOkB = true) ∧
    (∀ (l : List RawPolicy) (j : Nat) (m : String),
        policiesValidate ⟨some l⟩ = .error (BatchError.element j m) →
          j < l.length ∧
          policyOkB (l.getD j ⟨none, none, none⟩) = false ∧
          ∀ t, t < j → policyOkB (l.getD t ⟨none, none, none⟩) = true) ∧
    (∀ (σ : Type) (cfg : Config) (now : Nat) (e : Engine σ) (s : σ)
        (req : Request) (acc : String),
        authCheck cfg now req.authHeader = .ok acc →
        req.method = Method.post → req.path = "/policies" →
        exceptOk (policiesValidate req.body.toRawBatch) = false →
          (handle cfg now e s req).status = 400 ∧
          (handle cfg now e s req).calls = []) := by
  refine ⟨?_, ?_, ?_⟩
  · intro b
    cases hb : b.policies with
    | none => simp [policiesValidate, hb, exceptOk]
    | some l => simp [policiesValidate, hb, elementsValidate_ok 0 l]
  · intro l j m h
    obtain ⟨-, h2, h3, h4⟩ := elementsValidate_first_bad l 0 j m h
    simp only [Nat.sub_zero] at h2 h3 h4
    exact ⟨h2, h3, h4⟩
  · intro σ cfg now e s req acc hauth hm hp hval
    rw [handle_auth_ok cfg now e s req acc hauth]
    unfold route
    rw [routeKey_post_policies req hm hp]
    exact addPoliciesHandler_reject e s _ hval

theorem C2_batch_validation_witness :
    1 < ([⟨some "a", some "b", some "read"⟩,
          ⟨some "", some "b", some "read"⟩] : List RawPolicy).length ∧
      policyOkB (([⟨some "a", some "b", some "read"⟩,
          ⟨some "", some "b", some "read"⟩] : List RawPolicy).getD 1
            ⟨none, none, none⟩) = false ∧
      ∀ t, t < 1 → policyOkB (([⟨some "a", some "b", some "read"⟩,
          ⟨some "", some "b", some "read"⟩] : List RawPolicy).getD t
            ⟨none, none, none⟩) = true :=
  C2_batch_validation.2.1
    [⟨some "a", some "b", some "read"⟩, ⟨some "", some "b", some "read"⟩]
    1 "sub is not allowed to be empty" rfl

theorem filterValidateCore_isOk (fi : Int) (f : RawFilter) :
    exceptOk (filterValidateCore fi f)
      = (nonEmptyOpt f.sub && nonEmptyOpt f.obj && nonEmptyOpt f.act
          && orSatisfied f) := by
  obtain ⟨fx, s, o, a⟩ := f
  cases s <;> cases o <;> cases a <;>
    simp only [filterValidateCore, optionalString, orSatisfied, nonEmptyOpt] <;>
    split_ifs <;>
    simp_all [exceptOk, orSatisfied]

theorem filterValidateCore_ok_val (fi : Int) (f : RawFilter) (flt : Filter)
    (h : filterValidateCore fi f = .ok flt) : flt.fieldIndex = fi := by
  obtain ⟨fx, s, o, a⟩ := f
  cases s <;> cases o <;> cases a <;>
    simp only [filterValidateCore, optionalString, orSatisfied] at h <;>
    split_ifs at h <;>
    simp_all <;> rw [← h]

theorem filterValidate_isOk (f : RawFilter) :
    exceptOk (filterValidate f)
      = (fieldIndexOkB f.fieldIndex && nonEmptyOpt f.sub && nonEmptyOpt f.obj
          && nonEmptyOpt f.act && orSatisfied f) := by
  obtain ⟨fx, s, o, a⟩ := f
  cases fx with
  | none =>
      have hcore := filterValidateCore_isOk 0 ⟨none, s, o, a⟩
      simp only [filterValidate]
      rw [hcore]
      simp [fieldIndexOkB]
  | some i =>
      simp only [filterValidate]
      by_cases hi : i < 0
      · have hnot : ¬ (0 ≤ i) := by omega
        rw [if_pos hi]
        simp [exceptOk, fieldIndexOkB, hnot]
      · have hle : 0 ≤ i := by omega
        rw [if_neg hi]
        rw [filterValidateCore_isOk i ⟨some i, s, o, a⟩]
        simp [fieldIndexOkB, hle]

/-- C3 counterexample: the payload with only `obj` present but equal to the
empty string. The claim's acceptance condition holds (`fieldIndex` absent,
at least one of sub/obj/act present), yet `filteredPolicySchema` rejects
the payload because a present field must be a non-empty string. -/
theorem C3_counterexample :
    claimFilterAccepts ⟨none, none, some "", none⟩ = true ∧
    exceptOk (filterValidate ⟨none, none, some "", none⟩) = false := by
  refine ⟨by decide, by decide⟩

/-- C3 (amended): filter validation accepts a payload iff `fieldIndex` is
absent or an integer `≥ 0`, at least one of sub/obj/act is present, and
every present one is a non-empty string; an absent `fieldIndex` is
defaulted to 0; a payload with none of sub/obj/act present is rejected; one
with only `act` present (non-empty) and `fieldIndex` defaulted to 0 is
accepted even though `fieldIndex` nominally points at `sub`. -/
theorem C3_filter_validation :
    (∀ f : RawFilter, exceptOk (filterValidate f)
        = (fieldIndexOkB f.fieldIndex && nonEmptyOpt f.sub && nonEmptyOpt f.obj
            && nonEmptyOpt f.act && orSatisfied f)) ∧
    (∀ (f : RawFilter) (flt : Filter), f.fieldIndex = none →
        filterValidate f = .ok flt → flt.fieldIndex = 0) ∧
    (∀ f : RawFilter, f.sub = none → f.obj = none → f.act = none →
        exceptOk (filterValidate f) = false) ∧
    (∀ a : String, a ≠ "" →
        filterValidate ⟨none, none, none, some a⟩
          = .ok ⟨0, none, none, some a⟩) := by
  refine ⟨filterValidate_isOk, ?_, ?_, ?_⟩
  · intro f flt hfi h
    obtain ⟨fx, s, o, a⟩ := f
    simp only at hfi
    subst hfi
    exact filterValidateCore_ok_val 0 ⟨none, s, o, a⟩ flt h
  · intro f hs ho ha
    rw [filterValidate_isOk]
    simp [orSatisfied, hs, ho, ha]
  · intro a ha
    simp [filterValidate, filterValidateCore, optionalString, orSatisfied, ha]

theorem C3_filter_validation_witness :
    "read" ≠ "" ∧
      filterValidate ⟨none, none, none, some "read"⟩
        = .ok ⟨0, none, none, some "read"⟩ :=
  ⟨by decide, C3_filter_validation.2.2.2 "read" (by decide)⟩

/-- C8 counterexample: the payload with only `act` present and equal to the
empty string. The claim says such a payload passes validation; it does not:
the empty string fails the per-field non-empty rule, even though the key
counts as present for the cross-field constraint. -/
theorem C8_counterexample :
    orSatisfied ⟨none, none, none, some ""⟩ = true ∧
    exceptOk (filterValidate ⟨none, none, none, some ""⟩) = false := by
  refine ⟨by decide, by decide⟩

/-- C8 (amended): a field that is syntactically present with an
empty-string value is treated by the `.or` cross-field constraint as a
present value (it satisfies the at-least-one requirement), not as absent —
but the payload nonetheless fails validation, because a present field must
be a non-empty string. -/
theorem C8_empty_string_field :
    ∀ f : RawFilter, f.sub = some "" ∨ f.obj = some "" ∨ f.act = some "" →
      orSatisfied f = true ∧ exceptOk (filterValidate f) = false := by
  intro f h
  constructor
  · rcases h with h | h | h <;> simp [orSatisfied, h]
  · rw [filterValidate_isOk]
    rcases h with h | h | h <;> simp [nonEmptyOpt, h]

theorem C8_empty_string_field_witness :
    (some "" = some "" ∨ (none : Option String) = some ""
        ∨ (none : Option String) = some "") ∧
      orSatisfied ⟨none, some "", none, none⟩ = true ∧
      exceptOk (filterValidate ⟨none, some "", none, none⟩) = false :=
  ⟨Or.inl rfl, C8_empty_string_field ⟨none, some "", none, none⟩ (Or.inl rfl)⟩

/-- C4 counterexample: a request whose Bearer token is present but fails
verification (it is not a valid JWT). The claim says an absent or malformed
token yields 401; the middleware returns 403 ("Invalid token.") for any
token that fails `jwt.verify`. -/
theorem C4_counterexample :
    (handle cfg0 0 engine0 () reqBadToken).status = 403 ∧
    (handle cfg0 0 engine0 () reqBadToken).status ≠ 401 := by
  refine ⟨by decide, by decide⟩

/-- C4 (amended): GET /health returns 200 with no Authorization header;
every other route with an absent header, with a header lacking a token
part, or with an empty-string token part (the falsy `if (!token)` test,
e.g. the header "Bearer  x"), returns 401; a present non-empty token that
fails `jwt.verify` (malformed, wrong key, or expired) returns 403; a
cryptographically valid token whose accountId differs from the configured
trusted account returns 403; an authenticated request whose payload fails
schema validation returns 400. -/
theorem C4_status_mapping :
    (∀ (σ : Type) (e : Engine σ) (s : σ) (cfg : Config) (now : Nat)
        (b : Body) (q : RawFilter),
        (handle cfg now e s ⟨Method.get, "/health", none, b, q⟩).status = 200) ∧
    (∀ (σ : Type) (e : Engine σ) (s : σ) (cfg : Config) (now : Nat)
        (req : Request), req.path ≠ "/health" → req.authHeader = none →
        (handle cfg now e s req).status = 401) ∧
    (∀ (σ : Type) (e : Engine σ) (s : σ) (cfg : Config) (now : Nat)
        (req : Request) (parts : List Token),
        req.path ≠ "/health" → req.authHeader = some parts →
        parts[1]? = none →
        (handle cfg now e s req).status = 401) ∧
    (∀ (σ : Type) (e : Engine σ) (s : σ) (cfg : Config) (now : Nat)
        (req : Request) (parts : List Token),
        req.path ≠ "/health" → req.authHeader = some parts →
        parts[1]? = some (Token.word "") →
        (handle cfg now e s req).status = 401) ∧
    (∀ (σ : Type) (e : Engine σ) (s : σ) (cfg : Config) (now : Nat)
        (req : Request) (parts : List Token) (tok : Token) (m : String),
        req.path ≠ "/health" → req.authHeader = some parts →
        parts[1]? = some tok → tok ≠ Token.word "" →
        verifyToken cfg.signKey now tok = .error m →
        (handle cfg now e s req).status = 403) ∧
    (∀ (σ : Type) (e : Engine σ) (s : σ) (cfg : Config) (now : Nat)
        (req : Request) (parts : List Token) (tok : Token) (pl : JwtPayload),
        req.path ≠ "/health" → req.authHeader = some parts →
        parts[1]? = some tok →
        verifyToken cfg.signKey now tok = .ok pl →
        pl.accountId ≠ cfg.awsAccountId →
        (handle cfg now e s req).status = 403) ∧
    (∀ (σ : Type) (e : Engine σ) (s : σ) (cfg : Config) (now : Nat)
        (req : Request) (acc : String),
        authCheck cfg now req.authHeader = .ok acc →
        validationRejected req = true →
        (handle cfg now e s req).status = 400) := by
  refine ⟨?_, ?_, ?_, ?_, ?_, ?_, ?_⟩
  · intro σ e s cfg now b q
    rfl
  · intro σ e s cfg now req hp hh
    simp [handle, hp, hh, authCheck]
  · intro σ e s cfg now req parts hp hh htok
    simp [handle, hp, hh, authCheck, htok]
  · intro σ e s cfg now req parts hp hh htok
    simp [handle, hp, hh, authCheck, htok]
  · intro σ e s cfg now req parts tok m hp hh htok hne hver
    simp [handle, hp, hh, authCheck, htok, hne, hver]
  · intro σ e s cfg now req parts tok pl hp hh htok hver hacc
    have hne : tok ≠ Token.word "" := by
      intro hcontra
      rw [hcontra] at hver
      simp [verifyToken] at hver
    simp [handle, hp, hh, authCheck, htok, hne, hver, hacc]
  · intro σ e s cfg now req acc hauth hval
    rw [handle_auth_ok cfg now e s req acc hauth]
    exact (route_validation_reject e s req hval).1

theorem C4_status_mapping_witness :
    (reqNoAuth.path ≠ "/health" ∧ reqNoAuth.authHeader = none ∧
      (handle cfg0 0 engine0 () reqNoAuth).status = 401) ∧
    (reqEmptyToken.path ≠ "/health" ∧
      [Token.word "Bearer", Token.word "", Token.word "x"][1]?
        = some (Token.word "") ∧
      (handle cfg0 0 engine0 () reqEmptyToken).status = 401) :=
  ⟨⟨by decide, rfl,
    C4_status_mapping.2.1 Unit engine0 () cfg0 0 reqNoAuth (by decide) rfl⟩,
   ⟨by decide, rfl,
    C4_status_mapping.2.2.2.1 Unit engine0 () cfg0 0 reqEmptyToken
      [Token.word "Bearer", Token.word "", Token.word "x"] (by decide) rfl rfl⟩⟩

/-- C5: for every inbound request on every operation, if token
authentication fails (on any path other than the exempted /health) or
payload validation fails, then no Decision Engine method is invoked for
that request: the pipeline records zero engine calls. -/
theorem C5_reject_means_no_engine_call :
    ∀ (σ : Type) (cfg : Config) (now : Nat) (e : Engine σ) (s : σ)
      (req : Request),
      ((req.path ≠ "/health" ∧
          ∃ st m, authCheck cfg now req.authHeader = .error (st, m))
        ∨ validationRejected req = true) →
      (handle cfg now e s req).calls = [] := by
  intro σ cfg now e s req h
  rcases h with ⟨hp, st, m, herr⟩ | hval
  · rw [handle_auth_error cfg now e s req st m hp herr]
  · cases hca : authCheck cfg now req.authHeader with
    | error f =>
        by_cases hp : req.path = "/health"
        · rw [handle, if_pos hp]
          exact (route_validation_reject e s req hval).2
        · obtain ⟨st, m⟩ := f
          rw [handle_auth_error cfg now e s req st m hp hca]
    | ok acc =>
        rw [handle_auth_ok cfg now e s req acc hca]
        exact (route_validation_reject e s req hval).2

theorem C5_reject_means_no_engine_call_witness :
    ((reqNoAuth.path ≠ "/health" ∧
        ∃ st m, authCheck cfg0 0 reqNoAuth.authHeader = .error (st, m))
      ∨ validationRejected reqNoAuth = true) ∧
    (handle cfg0 0 engine0 () reqNoAuth).calls = [] :=
  ⟨Or.inl ⟨by decide, 401, "Authorization header missing.", rfl⟩,
   C5_reject_means_no_engine_call Unit cfg0 0 engine0 () reqNoAuth
     (Or.inl ⟨by decide, 401, "Authorization header missing.", rfl⟩)⟩

/-- C6: a token issued by the client carries the configured accountId and
an expiry 60 seconds after issuance; verification accepts it (yielding the
accountId) at any time strictly before expiry and rejects it at any time
after expiry; a token signed with the right key but carrying a different
accountId is rejected with the Unauthorized status (HTTP 403) regardless of
expiry. -/
theorem C6_token_lifecycle :
    (∀ (cfg : Config) (now : Nat),
        (generateJWT cfg now).accountId = cfg.awsAccountId ∧
        (generateJWT cfg now).exp = now + 60) ∧
    (∀ (cfg : Config) (now t : Nat), t < now + 60 →
        verifyToken cfg.signKey t (Token.signed (generateJWT cfg now))
          = .ok ⟨cfg.awsAccountId⟩) ∧
    (∀ (cfg : Config) (now t : Nat), now + 60 < t →
        verifyToken cfg.signKey t (Token.signed (generateJWT cfg now))
          = .error "jwt expired") ∧
    (∀ (cfg : Config) (t : Nat) (j : Jwt), j.key = cfg.signKey →
        j.accountId ≠ cfg.awsAccountId →
        ∃ m, authCheck cfg t (some [Token.word "Bearer", Token.signed j])
          = .error (403, m)) := by
  refine ⟨fun cfg now => ⟨rfl, rfl⟩, ?_, ?_, ?_⟩
  · intro cfg now t ht
    have hexp : ¬ ((generateJWT cfg now).exp ≤ t) := by
      simp [generateJWT]
      omega
    simp [verifyToken, generateJWT] at hexp ⊢
    omega
  · intro cfg now t ht
    have hexp : now + 60 ≤ t := by omega
    simp [verifyToken, generateJWT, hexp]
  · intro cfg t j hk hacc
    by_cases hexp : j.exp ≤ t
    · refine ⟨"Invalid token.", ?_⟩
      simp [authCheck, verifyToken, hk, hexp]
    · refine ⟨"Unauthorized account ID.", ?_⟩
      simp [authCheck, verifyToken, hk, hexp, hacc]

theorem C6_token_lifecycle_witness :
    30 < 0 + 60 ∧
      verifyToken cfg0.signKey 30 (Token.signed (generateJWT cfg0 0))
        = .ok ⟨cfg0.awsAccountId⟩ :=
  ⟨by decide, C6_token_lifecycle.2.1 cfg0 0 30 (by decide)⟩

theorem removePoliciesLoop_calls (e : Engine σ) (s : σ) (ps : List Policy) :
    (removePoliciesLoop e s ps).2.1
      = ps.map (fun p => EngineCall.removePolicy p.sub p.obj p.act) := by
  induction ps generalizing s with
  | nil => rfl
  | cons p ps ih => simp [removePoliciesLoop, ih]

theorem removePoliciesLoop_count (e : Engine σ) (s : σ) (ps : List Policy) :
    (removePoliciesLoop e s ps).1.length = (removeResults e s ps).count true := by
  induction ps generalizing s with
  | nil => simp [removePoliciesLoop, removeResults]
  | cons p ps ih =>
      simp only [removePoliciesLoop, removeResults]
      cases hr : (e.removePolicy s p.sub p.obj p.act).1 <;>
        simp [hr, List.count_cons, ih]

/-- C7: for every valid batch, DELETE /policies responds 200, makes exactly
one `removePolicy` engine call per batch element, in batch order — a failed
(false) removal of one element does not stop the processing of the
remaining elements — and reports as `removed` the number of elements whose
`removePolicy` call returned true. -/
theorem C7_remove_batch :
    ∀ (σ : Type) (cfg : Config) (now : Nat) (e : Engine σ) (s : σ)
      (req : Request) (ps : List Policy),
      req.method = Method.delete → req.path = "/policies" →
      (∃ acc, authCheck cfg now req.authHeader = .ok acc) →
      policiesValidate req.body.toRawBatch = .ok ps →
      (handle cfg now e s req).status = 200 ∧
      (handle cfg now e s req).calls
        = ps.map (fun p => EngineCall.removePolicy p.sub p.obj p.act) ∧
      (handle cfg now e s req).body
        = RespBody.jsonRemovedCount ((removeResults e s ps).count true) := by
  intro σ cfg now e s req ps hm hp hex hval
  obtain ⟨acc, hauth⟩ := hex
  rw [handle_auth_ok cfg now e s req acc hauth]
  unfold route
  rw [routeKey_delete_policies req hm hp]
  simp only [dispatch, removePoliciesHandler, hval]
  refine ⟨by simp, removePoliciesLoop_calls e s ps, ?_⟩
  rw [removePoliciesLoop_count]

theorem C7_remove_batch_witness :
    policiesValidate reqRemoveBatch.body.toRawBatch
        = .ok [⟨"alice", "doc1", "read"⟩, ⟨"bob", "doc2", "write"⟩] ∧
    (handle cfg0 0 engineAlice 0 reqRemoveBatch).status = 200 ∧
    (handle cfg0 0 engineAlice 0 reqRemoveBatch).calls
      = [EngineCall.removePolicy "alice" "doc1" "read",
         EngineCall.removePolicy "bob" "doc2" "write"] ∧
    (handle cfg0 0 engineAlice 0 reqRemoveBatch).body
      = RespBody.jsonRemovedCount 1 := by
  have h := C7_remove_batch Nat cfg0 0 engineAlice 0 reqRemoveBatch
    [⟨"alice", "doc1", "read"⟩, ⟨"bob", "doc2", "write"⟩] rfl rfl
    ⟨"123456789012", rfl⟩ rfl
  exact ⟨rfl, h.1, h.2.1, h.2.2⟩

/-- C9: for every configuration of C clients and R requests per client, the
harness runs exactly C virtual clients, client `k+1` performs exactly R
iterations whose events appear in strict iteration order `0 .. R-1`, the
event of iteration `i` depends only on that iteration's own outcome — in
particular an error raised in iteration `i` is caught and logged without
preventing the later iterations of that client or affecting other clients,
whose runs are functions of their own outcomes only — and the harness
result (reached exactly when `Promise.all` has collected every client)
contains all C finished clients. Randomness and the network are abstracted
as a per-client, per-iteration outcome oracle. -/
theorem C9_load_harness :
    ∀ (outcome : Nat → Nat → Except String Unit) (C R : Nat),
      (startStressTest outcome C R).length = C ∧
      (∀ k, k < C → (startStressTest outcome C R)[k]?
          = some (k + 1, clientBehavior (outcome (k + 1)) R)) ∧
      (∀ (f : Nat → Except String Unit) (n : Nat),
          (clientBehavior f n).length = n) ∧
      (∀ (f : Nat → Except String Unit) (n i : Nat), i < n →
          (clientBehavior f n)[i]? = some (iterationStep i (f i))) ∧
      (∀ (i : Nat) (m : String),
          iterationStep i (.error m) = IterationEvent.errorLogged i m) := by
  intro outcome C R
  refine ⟨?_, ?_, ?_, ?_, fun i m => rfl⟩
  · simp [startStressTest]
  · intro k hk
    simp [startStressTest, List.getElem?_map, List.getElem?_range hk]
  · intro f n
    simp [clientBehavior]
  · intro f n i hi
    simp [clientBehavior, List.getElem?_map, List.getElem?_range hi]

theorem C9_load_harness_witness :
    0 < 2 ∧
      (startStressTest (fun _ _ => .ok ()) 2 3)[0]?
        = some (1, clientBehavior ((fun _ _ => (Except.ok () : Except String Unit)) 1) 3) :=
  ⟨by decide, (C9_load_harness (fun _ _ => .ok ()) 2 3).2.1 0 (by decide)⟩

/-- C10: for every filter request that passes validation, the gateway
forwards the present field values to the Decision Engine as positional
arguments — the sequence [sub, obj, act] with absent fields removed —
starting at position fieldIndex, without checking that each supplied field
name corresponds to its positional slot: with fieldIndex = 2 and only sub
present, sub's value is sent as the filter for the act slot. -/
theorem C10_filter_forwarding :
    (∀ (σ : Type) (e : Engine σ) (s : σ) (q : RawFilter) (flt : Filter),
        filterValidate q = .ok flt →
        (getFilteredHandler e s q).calls
            = [EngineCall.getFilteredPolicy flt.fieldIndex (filterValues flt)] ∧
        (removeFilteredHandler e s q).calls
            = [EngineCall.removeFilteredPolicy flt.fieldIndex (filterValues flt)]) ∧
    (∀ flt : Filter, filterValues flt = List.filterMap id [flt.sub, flt.obj, flt.act]) ∧
    (filterValidate ⟨some 2, some "alice", none, none⟩
        = .ok ⟨2, some "alice", none, none⟩) ∧
    (∀ (σ : Type) (e : Engine σ) (s : σ),
        (getFilteredHandler e s ⟨some 2, some "alice", none, none⟩).calls
          = [EngineCall.getFilteredPolicy 2 ["alice"]]) := by
  refine ⟨?_, fun flt => rfl, rfl, fun σ e s => rfl⟩
  intro σ e s q flt h
  constructor
  · simp [getFilteredHandler, h]
  · simp [removeFilteredHandler, h]

theorem C10_filter_forwarding_witness :
    filterValidate ⟨some 1, none, some "doc", none⟩
        = .ok ⟨1, none, some "doc", none⟩ ∧
    (getFilteredHandler engine0 () ⟨some 1, none, some "doc", none⟩).calls
        = [EngineCall.getFilteredPolicy (1 : Int)
            (filterValues ⟨1, none, some "doc", none⟩)] ∧
    (removeFilteredHandler engine0 () ⟨some 1, none, some "doc", none⟩).calls
        = [EngineCall.removeFilteredPolicy (1 : Int)
            (filterValues ⟨1, none, some "doc", none⟩)] :=
  ⟨rfl, C10_filter_forwarding.1 Unit engine0 () ⟨some 1, none, some "doc", none⟩
    ⟨1, none, some "doc", none⟩ rfl⟩
end Casbin
